import Mathlib

/-!
# Verification of the financial calculation engine

Shallow embedding of the pure calculation layer of the repository
(`pmt`, `buildAmort`, `calculateSummary` consumers, the sensitivity grid
generator and the scenario risk analyzer).  JavaScript numbers are modelled
as exact rationals (`ℚ`); `Math.round x` is `⌊x + 1/2⌋` (round half up);
the float-stepped `for` loops of the grid generator are modelled with an
explicit fuel parameter so that non-termination is observable as `none`.
-/

/-- JavaScript `Math.round`: round half towards positive infinity. -/
def jsRound (x : ℚ) : ℤ := ⌊x + 1/2⌋

/-- Function `round2` from the source: `Math.round(n * 100) / 100`. -/
def round2 (n : ℚ) : ℚ := (jsRound (n * 100) : ℚ) / 100

/-- Function `pmt` from the source:
`m = years * 12; r = rateAnnual / 12;`
`if (principal <= 0 || years <= 0) return 0;`
`if (rateAnnual <= 0) return principal / m;`
`return (principal * (r * Math.pow(1 + r, m))) / (Math.pow(1 + r, m) - 1)`. -/
def pmt (rateAnnual : ℚ) (years : ℤ) (principal : ℚ) : ℚ :=
  let m : ℤ := years * 12
  let r : ℚ := rateAnnual / 12
  if principal ≤ 0 ∨ years ≤ 0 then 0
  else if rateAnnual ≤ 0 then principal / (m : ℚ)
  else principal * (r * (1 + r) ^ m) / ((1 + r) ^ m - 1)

/- ## Basic facts about `round2` -/

theorem round2_zero : round2 0 = 0 := by
  norm_num [round2, jsRound]

theorem abs_round2_sub_le (x : ℚ) : |round2 x - x| ≤ 1/200 := by
  have h1 : (⌊x * 100 + 1/2⌋ : ℚ) ≤ x * 100 + 1/2 := Int.floor_le _
  have h2 : x * 100 + 1/2 < (⌊x * 100 + 1/2⌋ : ℚ) + 1 := Int.lt_floor_add_one _
  rw [abs_le]
  constructor
  · rw [round2, jsRound]
    nlinarith
  · rw [round2, jsRound]
    nlinarith

theorem round2_mono {x y : ℚ} (h : x ≤ y) : round2 x ≤ round2 y := by
  unfold round2 jsRound
  have : (⌊x * 100 + 1/2⌋ : ℤ) ≤ ⌊y * 100 + 1/2⌋ := by
    apply Int.floor_le_floor
    linarith
  have : ((⌊x * 100 + 1/2⌋ : ℤ) : ℚ) ≤ ((⌊y * 100 + 1/2⌋ : ℤ) : ℚ) := by
    exact_mod_cast this
  linarith

/- ## Amortization table -/

/-- A row of the amortization table (`AmortizationRow` interface). -/
structure AmortizationRow where
  month : ℕ
  payment : ℚ
  interest : ℚ
  principal : ℚ
  balance : ℚ
deriving Repr, DecidableEq

/-- The `for (let i = 1; i <= m; i++)` loop of `buildAmort`:
`interest = bal * r; princ = Math.min(pay - interest, bal);`
`bal = Math.max(0, bal - princ)`, pushing a row of `round2`-ed fields.
The first argument counts remaining iterations, the second is the month
counter `i`, the third the running balance. -/
def amortLoop (pay r : ℚ) : ℕ → ℕ → ℚ → List AmortizationRow
  | 0, _, _ => []
  | k + 1, i, bal =>
    let interest := bal * r
    let princ := min (pay - interest) bal
    let bal2 := max 0 (bal - princ)
    { month := i, payment := round2 pay, interest := round2 interest,
      principal := round2 princ, balance := round2 bal2 } ::
      amortLoop pay r k (i + 1) bal2

/-- Function `buildAmort` from the source: `m = years * 12; pay = pmt(...)`;
loop `i = 1..m` with running balance starting at `principal`. -/
def buildAmort (principal rateAnnual : ℚ) (years : ℤ) : List AmortizationRow :=
  let m : ℕ := (years * 12).toNat
  let pay := pmt rateAnnual years principal
  let r : ℚ := rateAnnual / 12
  amortLoop pay r m 1 principal

/-- Exact outstanding balance after `j` of `n` payments of the annuity on
principal `p` at monthly growth factor `q = 1 + r`. -/
def balAt (p q : ℚ) (n j : ℕ) : ℚ := p * (q ^ n - q ^ j) / (q ^ n - 1)

theorem amortLoop_length (pay r : ℚ) :
    ∀ k i bal, (amortLoop pay r k i bal).length = k := by
  intro k
  induction k with
  | zero => intro i bal; rfl
  | succ k ih => intro i bal; simp [amortLoop, ih]

theorem amortLoop_zero (r : ℚ) :
    ∀ k i, amortLoop 0 r k i 0 =
      (List.range k).map (fun t =>
        { month := i + t, payment := 0, interest := 0,
          principal := 0, balance := 0 }) := by
  intro k
  induction k with
  | zero => intro i; rfl
  | succ k ih =>
    intro i
    rw [List.range_succ_eq_map]
    simp only [amortLoop, List.map_cons, List.map_map]
    have e1 : ((0:ℚ) - 0 * r) ⊓ 0 = 0 := by norm_num
    have e2 : (0:ℚ) ⊔ (0 - 0) = 0 := by norm_num
    rw [e1, e2, zero_mul, round2_zero, ih (i + 1)]
    congr 1
    apply List.map_congr_left
    intro t _
    simp only [Function.comp_apply]
    congr 1
    omega

/-- The exact fixed annuity payment `p * (r * q^n) / (q^n - 1)` written with
`q = 1 + r`. -/
def annuityPay (p q : ℚ) (n : ℕ) : ℚ := p * ((q - 1) * q ^ n) / (q ^ n - 1)

theorem qn_sub_one_pos {q : ℚ} (hq : 1 < q) {n : ℕ} (hn : 0 < n) :
    0 < q ^ n - 1 := by
  have := one_lt_pow₀ hq hn.ne'
  linarith

theorem pmt_eq_annuityPay {p ra : ℚ} {y : ℤ} (hp : 0 < p) (hra : 0 < ra)
    (hy : 0 < y) :
    pmt ra y p = annuityPay p (1 + ra / 12) (y * 12).toNat := by
  unfold pmt annuityPay
  rw [if_neg (by push_neg; exact ⟨hp, hy⟩), if_neg (by linarith)]
  rw [show ((1 : ℚ) + ra / 12) ^ (y * 12 : ℤ)
      = (1 + ra / 12) ^ ((y * 12).toNat) from by
    rw [← zpow_natCast, Int.toNat_of_nonneg (by positivity)]]
  ring_nf

theorem balAt_zero {p q : ℚ} (hq : 1 < q) {n : ℕ} (hn : 0 < n) :
    balAt p q n 0 = p := by
  have h := qn_sub_one_pos hq hn
  unfold balAt
  rw [pow_zero]
  field_simp

theorem balAt_last (p q : ℚ) (n : ℕ) : balAt p q n n = 0 := by
  simp [balAt]

theorem balAt_nonneg {p q : ℚ} (hp : 0 ≤ p) (hq : 1 < q) {n j : ℕ}
    (hn : 0 < n) (hj : j ≤ n) : 0 ≤ balAt p q n j := by
  have h1 := qn_sub_one_pos hq hn
  have h2 : q ^ j ≤ q ^ n := pow_le_pow_right₀ hq.le hj
  unfold balAt
  apply div_nonneg (mul_nonneg hp (by linarith)) (by linarith)

theorem balAt_anti {p q : ℚ} (hp : 0 ≤ p) (hq : 1 < q) {n i j : ℕ}
    (hn : 0 < n) (hij : i ≤ j) : balAt p q n j ≤ balAt p q n i := by
  have h1 := qn_sub_one_pos hq hn
  have h2 : q ^ i ≤ q ^ j := pow_le_pow_right₀ hq.le hij
  unfold balAt
  gcongr


theorem balAt_step {p q : ℚ} (hq : 1 < q) {n : ℕ} (hn : 0 < n) (j : ℕ) :
    balAt p q n j * q - annuityPay p q n = balAt p q n (j + 1) := by
  have h := qn_sub_one_pos hq hn
  unfold balAt annuityPay
  field_simp
  ring

/-- Explicit closed form for the rows produced by the `buildAmort` loop when
the running balance starts at the exact annuity balance `balAt p q n j`. -/
theorem amortLoop_shape {p q : ℚ} (hp : 0 < p) (hq : 1 < q) {n : ℕ}
    (hn : 0 < n) :
    ∀ k j i, j + k ≤ n →
      amortLoop (annuityPay p q n) (q - 1) k i (balAt p q n j) =
        (List.range k).map (fun t =>
          { month := i + t,
            payment := round2 (annuityPay p q n),
            interest := round2 (balAt p q n (j + t) * (q - 1)),
            principal := round2 (annuityPay p q n - balAt p q n (j + t) * (q - 1)),
            balance := round2 (balAt p q n (j + t + 1)) }) := by
  intro k
  induction k with
  | zero => intro j i _; rfl
  | succ k ih =>
    intro j i hjk
    have hstep := balAt_step (p := p) hq hn j
    have hb1 : 0 ≤ balAt p q n (j + 1) :=
      balAt_nonneg hp.le hq hn (by omega)
    have hmin : (annuityPay p q n - balAt p q n j * (q - 1)) ⊓ balAt p q n j
        = annuityPay p q n - balAt p q n j * (q - 1) := by
      apply min_eq_left
      nlinarith [hstep, hb1]
    have hmax : (0 : ℚ) ⊔ (balAt p q n j -
        (annuityPay p q n - balAt p q n j * (q - 1)))
        = balAt p q n (j + 1) := by
      rw [max_eq_right (by nlinarith [hstep, hb1])]
      nlinarith [hstep]
    rw [List.range_succ_eq_map]
    simp only [amortLoop, List.map_cons, List.map_map]
    rw [hmin, hmax, ih (j + 1) (i + 1) (by omega)]
    congr 1
    apply List.map_congr_left
    intro t _
    simp only [Function.comp_apply, Nat.succ_eq_add_one]
    have e1 : j + 1 + t = j + (t + 1) := by omega
    have e2 : i + 1 + t = i + (t + 1) := by omega
    rw [e1, e2]

/-- Closed form of the whole table for `principal > 0`, `rate > 0`,
`years > 0`: row `t` (0-based) amortizes the exact balance `balAt`. -/
theorem buildAmort_shape {p ra : ℚ} {y : ℤ} (hp : 0 < p) (hra : 0 < ra)
    (hy : 0 < y) :
    buildAmort p ra y =
      (List.range ((y * 12).toNat)).map (fun t =>
        { month := 1 + t,
          payment := round2 (annuityPay p (1 + ra / 12) (y * 12).toNat),
          interest := round2
            (balAt p (1 + ra / 12) (y * 12).toNat t * (ra / 12)),
          principal := round2 (annuityPay p (1 + ra / 12) (y * 12).toNat
            - balAt p (1 + ra / 12) (y * 12).toNat t * (ra / 12)),
          balance := round2
            (balAt p (1 + ra / 12) (y * 12).toNat (t + 1)) }) := by
  have hq : 1 < 1 + ra / 12 := by linarith
  have hn : 0 < (y * 12).toNat := by omega
  have key := amortLoop_shape hp hq hn ((y * 12).toNat) 0 1 (by omega)
  rw [balAt_zero hq hn] at key
  rw [show (1 + ra / 12) - 1 = ra / 12 from by ring] at key
  simp only [buildAmort]
  rw [pmt_eq_annuityPay hp hra hy, key]
  apply List.map_congr_left
  intro t _
  rw [Nat.zero_add]

theorem list_sum_round2_near (f : ℕ → ℚ) (n : ℕ) :
    |((List.range n).map (fun t => round2 (f t))).sum
      - ((List.range n).map f).sum| ≤ (n : ℚ) / 200 := by
  induction n with
  | zero => simp
  | succ n ih =>
    rw [List.range_succ, List.map_append, List.map_append, List.sum_append,
      List.sum_append]
    simp only [List.map_cons, List.map_nil, List.sum_cons, List.sum_nil,
      add_zero]
    have h1 := abs_round2_sub_le (f n)
    have key : ((List.range n).map (fun t => round2 (f t))).sum + round2 (f n)
        - (((List.range n).map f).sum + f n)
        = (((List.range n).map (fun t => round2 (f t))).sum
            - ((List.range n).map f).sum) + (round2 (f n) - f n) := by ring
    rw [key]
    have h2 := abs_add
      (((List.range n).map (fun t => round2 (f t))).sum
        - ((List.range n).map f).sum) (round2 (f n) - f n)
    push_cast
    linarith

theorem list_sum_telescope (g : ℕ → ℚ) (n : ℕ) :
    ((List.range n).map (fun t => g t - g (t + 1))).sum = g 0 - g n := by
  induction n with
  | zero => simp
  | succ n ih =>
    rw [List.range_succ, List.map_append, List.sum_append]
    simp only [List.map_cons, List.map_nil, List.sum_cons, List.sum_nil,
      add_zero]
    rw [ih]
    ring

/-- C1: for every principal > 0, annual rate > 0 and term (in years) > 0,
`buildAmort` returns exactly `term × 12` rows; the last row's balance equals
0 exactly; the sum of all rows' (rounded) `principal` fields equals the
original principal within rounding tolerance (half a cent per row); and
every row satisfies `payment = interest + principal` within rounding
tolerance (1.5 cents). -/
theorem buildAmort_c1 (p ra : ℚ) (y : ℤ) (hp : 0 < p) (hra : 0 < ra)
    (hy : 0 < y) :
    (buildAmort p ra y).length = (y * 12).toNat ∧
    (∃ r, (buildAmort p ra y).getLast? = some r ∧ r.balance = 0) ∧
    |((buildAmort p ra y).map AmortizationRow.principal).sum - p|
      ≤ ((y * 12).toNat : ℚ) / 200 ∧
    ∀ row ∈ buildAmort p ra y,
      |row.payment - (row.interest + row.principal)| ≤ 3 / 200 := by
  have hq : 1 < 1 + ra / 12 := by linarith
  have hn : 0 < (y * 12).toNat := by omega
  have hshape := buildAmort_shape hp hra hy
  have estep : ∀ t : ℕ,
      annuityPay p (1 + ra / 12) (y * 12).toNat
        - balAt p (1 + ra / 12) (y * 12).toNat t * (ra / 12)
      = balAt p (1 + ra / 12) (y * 12).toNat t
        - balAt p (1 + ra / 12) (y * 12).toNat (t + 1) := by
    intro t
    rw [← balAt_step hq hn t]
    ring
  refine ⟨?_, ?_, ?_, ?_⟩
  · rw [hshape]
    simp
  · obtain ⟨m, hm⟩ : ∃ m, (y * 12).toNat = m + 1 :=
      ⟨(y * 12).toNat - 1, by omega⟩
    have hlast : (buildAmort p ra y).getLast? = some
        { month := 1 + m,
          payment := round2 (annuityPay p (1 + ra / 12) (y * 12).toNat),
          interest := round2
            (balAt p (1 + ra / 12) (y * 12).toNat m * (ra / 12)),
          principal := round2 (annuityPay p (1 + ra / 12) (y * 12).toNat
            - balAt p (1 + ra / 12) (y * 12).toNat m * (ra / 12)),
          balance := round2
            (balAt p (1 + ra / 12) (y * 12).toNat (m + 1)) } := by
      rw [hshape,
        show List.range ((y * 12).toNat) = List.range (m + 1) from by rw [hm],
        List.range_succ, List.map_append]
      exact List.getLast?_concat _
    refine ⟨_, hlast, ?_⟩
    show round2 (balAt p (1 + ra / 12) (y * 12).toNat (m + 1)) = 0
    rw [← hm, balAt_last, round2_zero]
  · rw [hshape, List.map_map]
    have hS2 : ((List.range ((y * 12).toNat)).map
        (fun t => annuityPay p (1 + ra / 12) (y * 12).toNat
          - balAt p (1 + ra / 12) (y * 12).toNat t * (ra / 12))).sum = p := by
      rw [List.map_congr_left (fun t _ => estep t), list_sum_telescope,
        balAt_zero hq hn, balAt_last]
      ring
    have hnear := list_sum_round2_near
      (fun t => annuityPay p (1 + ra / 12) (y * 12).toNat
        - balAt p (1 + ra / 12) (y * 12).toNat t * (ra / 12)) ((y * 12).toNat)
    rw [hS2] at hnear
    convert hnear using 3
  · intro row hrow
    rw [hshape] at hrow
    obtain ⟨t, _, rfl⟩ := List.mem_map.mp hrow
    have h1 := abs_round2_sub_le (annuityPay p (1 + ra / 12) (y * 12).toNat)
    have h2 := abs_round2_sub_le
      (balAt p (1 + ra / 12) (y * 12).toNat t * (ra / 12))
    have h3 := abs_round2_sub_le (annuityPay p (1 + ra / 12) (y * 12).toNat
      - balAt p (1 + ra / 12) (y * 12).toNat t * (ra / 12))
    rw [abs_le] at h1 h2 h3 ⊢
    constructor
    · simp only
      linarith
    · simp only
      linarith

/-- Witness for `buildAmort_c1` at principal 1000, rate 5%, term 1 year. -/
theorem buildAmort_c1_witness :
    (0 : ℚ) < 1000 ∧ (0 : ℚ) < 1/20 ∧ (0 : ℤ) < 1 ∧
    ((buildAmort 1000 (1/20) 1).length = ((1 : ℤ) * 12).toNat ∧
     (∃ r, (buildAmort 1000 (1/20) 1).getLast? = some r ∧ r.balance = 0) ∧
     |((buildAmort 1000 (1/20) 1).map AmortizationRow.principal).sum - 1000|
       ≤ ((((1 : ℤ) * 12).toNat : ℚ)) / 200 ∧
     ∀ row ∈ buildAmort 1000 (1/20) 1,
       |row.payment - (row.interest + row.principal)| ≤ 3 / 200) :=
  ⟨by norm_num, by norm_num, by norm_num,
    buildAmort_c1 1000 (1/20) 1 (by norm_num) (by norm_num) (by norm_num)⟩

/-- The table of a zero principal: the loop still runs but every monetary
field is 0 (`pmt` returns 0 on `principal <= 0`). -/
theorem buildAmort_zero_shape (ra : ℚ) (y : ℤ) :
    buildAmort 0 ra y =
      (List.range ((y * 12).toNat)).map (fun t =>
        { month := 1 + t, payment := 0, interest := 0,
          principal := 0, balance := 0 }) := by
  have hpmt : pmt ra y 0 = 0 := by
    unfold pmt
    rw [if_pos (Or.inl le_rfl)]
  simp only [buildAmort, hpmt]
  exact amortLoop_zero _ _ _

/-- C8: for every schedule produced by `buildAmort` with rate > 0 (and a
non-negative principal), the `balance` and `interest` fields are
monotonically non-increasing and the `principal` field is monotonically
non-decreasing across the row sequence. -/
theorem buildAmort_c8 (p ra : ℚ) (y : ℤ) (hp : 0 ≤ p) (hra : 0 < ra) :
    ∀ (i j : ℕ) (hi : i < (buildAmort p ra y).length)
      (hj : j < (buildAmort p ra y).length), i ≤ j →
      ((buildAmort p ra y).get ⟨j, hj⟩).balance
        ≤ ((buildAmort p ra y).get ⟨i, hi⟩).balance ∧
      ((buildAmort p ra y).get ⟨j, hj⟩).interest
        ≤ ((buildAmort p ra y).get ⟨i, hi⟩).interest ∧
      ((buildAmort p ra y).get ⟨i, hi⟩).principal
        ≤ ((buildAmort p ra y).get ⟨j, hj⟩).principal := by
  intro i j hi hj hij
  have hlen : (buildAmort p ra y).length = (y * 12).toNat := by
    simp [buildAmort, amortLoop_length]
  rcases hp.eq_or_lt with hp0 | hp'
  · subst hp0
    simp only [buildAmort_zero_shape, List.get_eq_getElem, List.getElem_map,
      List.getElem_range]
    norm_num
  · rcases le_or_lt y 0 with hy0 | hy
    · exfalso
      rw [hlen] at hi
      omega
    · have hq : 1 < 1 + ra / 12 := by linarith
      have hn : 0 < (y * 12).toNat := by omega
      simp only [buildAmort_shape hp' hra hy, List.get_eq_getElem,
        List.getElem_map, List.getElem_range]
      have hbal : balAt p (1 + ra / 12) ((y * 12).toNat) j
          ≤ balAt p (1 + ra / 12) ((y * 12).toNat) i :=
        balAt_anti hp'.le hq hn hij
      refine ⟨?_, ?_, ?_⟩
      · exact round2_mono (balAt_anti hp'.le hq hn (by omega))
      · exact round2_mono
          (mul_le_mul_of_nonneg_right hbal (by linarith))
      · apply round2_mono
        have := mul_le_mul_of_nonneg_right hbal
          (show (0:ℚ) ≤ ra / 12 by linarith)
        linarith

/-- Witness for `buildAmort_c8`: rows 0 and 5 of a 5%, 1 year, 1000 loan. -/
theorem buildAmort_c8_witness :
    (0:ℚ) ≤ 1000 ∧ (0:ℚ) < 1/20 ∧
    ∀ (hi : 0 < (buildAmort 1000 (1/20) 1).length)
      (hj : 5 < (buildAmort 1000 (1/20) 1).length),
      ((buildAmort 1000 (1/20) 1).get ⟨5, hj⟩).balance
        ≤ ((buildAmort 1000 (1/20) 1).get ⟨0, hi⟩).balance ∧
      ((buildAmort 1000 (1/20) 1).get ⟨5, hj⟩).interest
        ≤ ((buildAmort 1000 (1/20) 1).get ⟨0, hi⟩).interest ∧
      ((buildAmort 1000 (1/20) 1).get ⟨0, hi⟩).principal
        ≤ ((buildAmort 1000 (1/20) 1).get ⟨5, hj⟩).principal :=
  ⟨by norm_num, by norm_num, fun hi hj =>
    buildAmort_c8 1000 (1/20) 1 (by norm_num) (by norm_num) 0 5 hi hj
      (by norm_num)⟩

/-- C7 counterexample: with principal 0 and a positive term the claimed
empty sequence is refuted — `buildAmort 0 (4%) 1` has 12 rows. -/
theorem buildAmort_c7_counterexample :
    buildAmort 0 (1/25) 1 ≠ [] ∧ (buildAmort 0 (1/25) 1).length = 12 := by
  have hlen : (buildAmort 0 (1/25) 1).length = 12 := by
    rw [buildAmort_zero_shape]
    simp
  refine ⟨?_, hlen⟩
  intro h
  rw [h] at hlen
  simp at hlen

/-- C7 amended: if `termYears ≤ 0` the table is empty; if `principal = 0`
(with any term) the table has `termYears × 12` rows whose `payment`,
`interest`, `principal` and `balance` fields are all 0. -/
theorem buildAmort_c7_amended (p ra : ℚ) (y : ℤ) :
    (y ≤ 0 → buildAmort p ra y = []) ∧
    (p = 0 → (buildAmort p ra y).length = (y * 12).toNat ∧
      ∀ row ∈ buildAmort p ra y, row.payment = 0 ∧ row.interest = 0 ∧
        row.principal = 0 ∧ row.balance = 0) := by
  constructor
  · intro hy
    have h0 : (y * 12).toNat = 0 := by omega
    simp only [buildAmort, h0]
    rfl
  · intro hp0
    subst hp0
    constructor
    · rw [buildAmort_zero_shape]
      simp
    · intro row hrow
      rw [buildAmort_zero_shape] at hrow
      obtain ⟨t, _, rfl⟩ := List.mem_map.mp hrow
      exact ⟨rfl, rfl, rfl, rfl⟩

/-- Witness for `buildAmort_c7_amended`: a non-positive term gives the empty
table; a zero principal with a 1 year term gives 12 rows. -/
theorem buildAmort_c7_amended_witness :
    buildAmort 1 (1/25) 0 = [] ∧
    (buildAmort 0 (1/25) 1).length = ((1:ℤ) * 12).toNat :=
  ⟨(buildAmort_c7_amended 1 (1/25) 0).1 (by norm_num),
   ((buildAmort_c7_amended 0 (1/25) 1).2 rfl).1⟩

/- ## `pmt` versus the specified `computeMonthlyPayment` -/

/-- Operation `computeMonthlyPayment` as worded by the spec: 0 when `principal ≤ 0` or
`termYears ≤ 0`; straight-line `principal / (termYears × 12)` when
`annualRate ≤ 0`; otherwise the fixed-payment annuity formula
`principal × (r × (1+r)^n) / ((1+r)^n − 1)` with `r = annualRate / 12` and
`n = termYears × 12`. -/
def computeMonthlyPaymentSpec (annualRate : ℚ) (termYears : ℤ)
    (principal : ℚ) : ℚ :=
  if principal ≤ 0 ∨ termYears ≤ 0 then 0
  else if annualRate ≤ 0 then principal / ((termYears : ℚ) * 12)
  else
    let r := annualRate / 12
    let n : ℤ := termYears * 12
    principal * (r * (1 + r) ^ n) / ((1 + r) ^ n - 1)

/-- C2: `pmt` agrees with the spec's `computeMonthlyPayment` on every input,
and in particular `pmt 0 10 120000 = 1000` exactly. -/
theorem pmt_c2 :
    (∀ (ra : ℚ) (y : ℤ) (p : ℚ), pmt ra y p = computeMonthlyPaymentSpec ra y p)
    ∧ pmt 0 10 120000 = 1000 := by
  constructor
  · intro ra y p
    unfold pmt computeMonthlyPaymentSpec
    by_cases h1 : p ≤ 0 ∨ y ≤ 0
    · rw [if_pos h1, if_pos h1]
    · rw [if_neg h1, if_neg h1]
      by_cases h2 : ra ≤ 0
      · rw [if_pos h2, if_pos h2]
        congr 1
        push_cast
        ring
      · rw [if_neg h2, if_neg h2]
  · have : pmt 0 10 120000 = (120000 : ℚ) / ((10 * 12 : ℤ) : ℚ) := by
      unfold pmt
      rw [if_neg (by norm_num), if_pos le_rfl]
    rw [this]
    norm_num

/- ## Monotonicity of `pmt` (C9) -/

/-- The present value of `n` unit payments at growth factor `q`:
`∑_{k=1}^{n} q^{-k}`. -/
def annuitySum (q : ℚ) (n : ℕ) : ℚ := ∑ k ∈ Finset.range n, (1 / q) ^ (k + 1)

theorem annuitySum_eq {q : ℚ} (hq : 1 < q) (n : ℕ) :
    annuitySum q n = (q ^ n - 1) / ((q - 1) * q ^ n) := by
  have hq0 : q ≠ 0 := by linarith
  have hq1 : q - 1 ≠ 0 := by intro h; apply hq.ne'; linarith
  induction n with
  | zero => simp [annuitySum]
  | succ n ih =>
    have hqn : q ^ n ≠ 0 := pow_ne_zero _ hq0
    rw [annuitySum, Finset.sum_range_succ, ← annuitySum, ih]
    rw [pow_succ]
    field_simp
    ring

theorem annuitySum_pos {q : ℚ} (hq : 1 < q) {n : ℕ} (hn : 0 < n) :
    0 < annuitySum q n := by
  rw [annuitySum_eq hq]
  exact div_pos (qn_sub_one_pos hq hn)
    (mul_pos (by linarith) (by positivity))

theorem annuitySum_anti {q1 q2 : ℚ} (hq1 : 1 < q1) (hlt : q1 < q2) {n : ℕ}
    (hn : 0 < n) : annuitySum q2 n < annuitySum q1 n := by
  unfold annuitySum
  apply Finset.sum_lt_sum_of_nonempty (Finset.nonempty_range_iff.mpr hn.ne')
  intro k _
  apply pow_lt_pow_left₀ (one_div_lt_one_div_of_lt (by linarith) hlt)
    (by apply le_of_lt; apply one_div_pos.mpr; linarith) (Nat.succ_ne_zero k)

theorem pmt_eq_div_annuitySum {p ra : ℚ} {y : ℤ} (hp : 0 < p) (hra : 0 < ra)
    (hy : 0 < y) :
    pmt ra y p = p / annuitySum (1 + ra / 12) ((y * 12).toNat) := by
  have hq : 1 < 1 + ra / 12 := by linarith
  have hn : 0 < (y * 12).toNat := by omega
  rw [pmt_eq_annuityPay hp hra hy, annuitySum_eq hq]
  unfold annuityPay
  rw [div_div_eq_mul_div]

/-- C9: for fixed rate > 0 and term > 0, `pmt` is strictly increasing in the
principal; for fixed principal > 0 and term > 0, strictly increasing in the
annual rate. -/
theorem pmt_c9 :
    (∀ (ra p1 p2 : ℚ) (y : ℤ), 0 < ra → 0 < y → 0 < p1 → p1 < p2 →
      pmt ra y p1 < pmt ra y p2) ∧
    (∀ (p ra1 ra2 : ℚ) (y : ℤ), 0 < p → 0 < y → 0 < ra1 → ra1 < ra2 →
      pmt ra1 y p < pmt ra2 y p) := by
  constructor
  · intro ra p1 p2 y hra hy hp1 hlt
    have hn : 0 < (y * 12).toNat := by omega
    rw [pmt_eq_div_annuitySum hp1 hra hy,
      pmt_eq_div_annuitySum (hp1.trans hlt) hra hy]
    exact (div_lt_div_iff_of_pos_right (annuitySum_pos (by linarith) hn)).mpr hlt
  · intro p ra1 ra2 y hp hy hra1 hlt
    have hn : 0 < (y * 12).toNat := by omega
    have hq1 : 1 < 1 + ra1 / 12 := by linarith
    have hq2 : 1 < 1 + ra2 / 12 := by linarith
    have hqlt : 1 + ra1 / 12 < 1 + ra2 / 12 := by linarith
    rw [pmt_eq_div_annuitySum hp hra1 hy,
      pmt_eq_div_annuitySum hp (by linarith) hy]
    rw [div_lt_div_iff₀ (annuitySum_pos hq1 hn) (annuitySum_pos hq2 hn)]
    exact mul_lt_mul_of_pos_left (annuitySum_anti hq1 hqlt hn) hp

/-- Witness for `pmt_c9` at 4% → 5%, 20 years, 100000 → 200000. -/
theorem pmt_c9_witness :
    ((0:ℚ) < 1/25 ∧ (0:ℤ) < 20 ∧ (0:ℚ) < 100000 ∧ (100000:ℚ) < 200000 ∧
      pmt (1/25) 20 100000 < pmt (1/25) 20 200000) ∧
    ((0:ℚ) < 100000 ∧ (0:ℤ) < 20 ∧ (0:ℚ) < 1/25 ∧ (1/25:ℚ) < 1/20 ∧
      pmt (1/25) 20 100000 < pmt (1/20) 20 100000) :=
  ⟨⟨by norm_num, by norm_num, by norm_num, by norm_num,
    pmt_c9.1 (1/25) 100000 200000 20 (by norm_num) (by norm_num)
      (by norm_num) (by norm_num)⟩,
   ⟨by norm_num, by norm_num, by norm_num, by norm_num,
    pmt_c9.2 100000 (1/25) (1/20) 20 (by norm_num) (by norm_num)
      (by norm_num) (by norm_num)⟩⟩

/- ## Summary and the affordability classification (`SummaryCards`) -/

/-- The `Summary` interface. -/
structure Summary where
  regTax : ℚ
  renoWithCont : ℚ
  totalProject : ℚ
  totalSources : ℚ
  fundingGap : ℚ
  bankMonthly : ℚ
  familyMonthly : ℚ
  totalDebt : ℚ
  dtiPct : ℚ
  netAfter : ℚ
deriving Repr, DecidableEq

/-- From `SummaryCards`: `hasIssues = isFundingGapBad || isDTIRed || isNetAfterBad`
with `isFundingGapBad = fundingGap > 0`, `isDTIRed = dtiPct > 55`,
`isNetAfterBad = netAfter < 0`. -/
def hasIssues (s : Summary) : Prop :=
  s.fundingGap > 0 ∨ s.dtiPct > 55 ∨ s.netAfter < 0

/-- From `SummaryCards`: `needsAttention = !hasIssues && isDTIAmber` with
`isDTIAmber = dtiPct > 45`. -/
def needsAttention (s : Summary) : Prop :=
  ¬ hasIssues s ∧ s.dtiPct > 45

/-- From `SummaryCards`: `looksGood = !hasIssues && !needsAttention`. -/
def looksGood (s : Summary) : Prop :=
  ¬ hasIssues s ∧ ¬ needsAttention s

instance (s : Summary) : Decidable (hasIssues s) := by
  unfold hasIssues; infer_instance

instance (s : Summary) : Decidable (needsAttention s) := by
  unfold needsAttention; infer_instance

instance (s : Summary) : Decidable (looksGood s) := by
  unfold looksGood; infer_instance

/-- A summary with no funding gap, DTI 40% and net cashflow exactly 0. -/
def edgeSummary : Summary :=
  { regTax := 0, renoWithCont := 0, totalProject := 0, totalSources := 0,
    fundingGap := 0, bankMonthly := 0, familyMonthly := 0, totalDebt := 0,
    dtiPct := 40, netAfter := 0 }

/-- C5 counterexample: at `netAfter = 0` (funding gap ≤ 0, DTI ≤ 45) the
code classifies the summary GOOD, while the claim requires `netAfter > 0`
for GOOD. -/
theorem summary_c5_counterexample :
    looksGood edgeSummary ∧
    ¬ (edgeSummary.fundingGap ≤ 0 ∧ edgeSummary.dtiPct ≤ 45 ∧
        edgeSummary.netAfter > 0) := by
  constructor
  · unfold looksGood needsAttention hasIssues edgeSummary
    norm_num
  · unfold edgeSummary
    norm_num

/-- C5 amended: GOOD (`looksGood`) holds exactly when fundingGap ≤ 0, dtiPct
≤ 45 and netAfter ≥ 0 (non-negative, not strictly positive); BAD
(`hasIssues`) exactly when fundingGap > 0 or dtiPct > 55 or netAfter < 0;
WARN (`needsAttention`) exactly when not BAD and dtiPct > 45; BAD dominates
WARN dominates GOOD and the three cases are exhaustive. -/
theorem summary_c5_amended (s : Summary) :
    (looksGood s ↔ (s.fundingGap ≤ 0 ∧ s.dtiPct ≤ 45 ∧ 0 ≤ s.netAfter)) ∧
    (hasIssues s ↔ (0 < s.fundingGap ∨ 55 < s.dtiPct ∨ s.netAfter < 0)) ∧
    (needsAttention s ↔ (¬ hasIssues s ∧ 45 < s.dtiPct)) ∧
    (hasIssues s → ¬ needsAttention s ∧ ¬ looksGood s) ∧
    (needsAttention s → ¬ looksGood s) ∧
    (hasIssues s ∨ needsAttention s ∨ looksGood s) := by
  have e1 : ¬ (0 < s.fundingGap) ↔ s.fundingGap ≤ 0 := not_lt
  have e2 : ¬ (55 < s.dtiPct) ↔ s.dtiPct ≤ 55 := not_lt
  have e3 : ¬ (45 < s.dtiPct) ↔ s.dtiPct ≤ 45 := not_lt
  have e4 : ¬ (s.netAfter < 0) ↔ 0 ≤ s.netAfter := not_lt
  have e5 : s.dtiPct ≤ 45 → s.dtiPct ≤ 55 := fun h => le_trans h (by norm_num)
  unfold looksGood needsAttention hasIssues
  refine ⟨?_, ?_, ?_, ?_, ?_, ?_⟩
  · itauto
  · itauto
  · itauto
  · intro h
    exact ⟨fun hw => hw.1 h, fun hg => hg.1 h⟩
  · intro hw hg
    exact hg.2 hw
  · by_cases hb : s.fundingGap > 0 ∨ s.dtiPct > 55 ∨ s.netAfter < 0
    · exact Or.inl hb
    · by_cases hd : s.dtiPct > 45
      · exact Or.inr (Or.inl ⟨hb, hd⟩)
      · exact Or.inr (Or.inr ⟨hb, fun hw => hd hw.2⟩)

/- ## Scenario risk analyzer -/

/-- The fields of the `FinancialInputs` interface used in arithmetic (the
descriptive string fields are omitted; term fields are integers). -/
structure FinancialInputs where
  purchasePrice : ℚ
  registrationRatePct : ℚ
  notaryFees : ℚ
  renovationBudget : ℚ
  contingencyPct : ℚ
  ownCash : ℚ
  cryptoNet : ℚ
  familyLoanAmount : ℚ
  familyLoanRatePct : ℚ
  familyLoanTermYears : ℤ
  bankLoanAmount : ℚ
  bankRatePct : ℚ
  bankTermYears : ℤ
  netIncomeMonthly : ℚ
  otherFixedCostsMonthly : ℚ
  airbnbIncome : ℚ
  useAirbnbIncome : Bool
  businessUsePct : ℚ
deriving Repr, DecidableEq

/-- The scenario risk tiers `'Laag' | 'Gemiddeld' | 'Hoog'`. -/
inductive Risk where
  | laag
  | gemiddeld
  | hoog
deriving Repr, DecidableEq

/-- The overall risk colors `'green' | 'yellow' | 'red'`. -/
inductive RiskColor where
  | green
  | yellow
  | red
deriving Repr, DecidableEq

/-- The `ScenarioAnalysis` interface. -/
structure ScenarioAnalysis where
  name : String
  rate : ℚ
  incomeDelta : ℚ
  bankMonthly : ℚ
  familyMonthly : ℚ
  totalDebt : ℚ
  dtiPct : ℚ
  monthlyNet : ℚ
  risk : Risk
deriving Repr, DecidableEq

/-- Function `calculateScenario` from the source. -/
def calculateScenario (name : String) (bankRate incomeDelta netIncome : ℚ)
    (inputs : FinancialInputs) (familyMonthly : ℚ) : ScenarioAnalysis :=
  let bankMonthly :=
    pmt (bankRate / 100) inputs.bankTermYears inputs.bankLoanAmount
  let totalDebt := bankMonthly + familyMonthly
  let dtiPct := if netIncome > 0 then totalDebt / netIncome * 100 else 100
  let airbnb := if inputs.useAirbnbIncome then inputs.airbnbIncome else 0
  let monthlyNet :=
    netIncome - inputs.otherFixedCostsMonthly + airbnb - totalDebt
  let risk : Risk :=
    if dtiPct ≤ 45 ∧ monthlyNet > 1000 then .laag
    else if dtiPct ≤ 55 ∧ monthlyNet > 0 then .gemiddeld
    else .hoog
  { name := name, rate := round2 bankRate, incomeDelta := incomeDelta,
    bankMonthly := round2 bankMonthly, familyMonthly := round2 familyMonthly,
    totalDebt := round2 totalDebt, dtiPct := round2 dtiPct,
    monthlyNet := round2 monthlyNet, risk := risk }

/-- Function `generateScenarios` from the source: Optimistisch (rate − 0.5 clamped to
≥ 0.5, income × 1.1), Realistisch (unchanged), Conservatief (rate + 0.5,
income × 0.9), in this order. -/
def generateScenarios (inputs : FinancialInputs) (summary : Summary) :
    List ScenarioAnalysis :=
  [ calculateScenario "Optimistisch" (max (1/2) (inputs.bankRatePct - 1/2))
      10 (inputs.netIncomeMonthly * (11/10)) inputs summary.familyMonthly,
    calculateScenario "Realistisch" inputs.bankRatePct
      0 inputs.netIncomeMonthly inputs summary.familyMonthly,
    calculateScenario "Conservatief" (inputs.bankRatePct + 1/2)
      (-10) (inputs.netIncomeMonthly * (9/10)) inputs summary.familyMonthly ]

/-- The `riskColor` component of `assessOverallRisk`: funding gap > 0 gives
red; otherwise the middle scenario `scenarios[1]` is consulted (`none`
models the JS crash when the list is too short). -/
def assessOverallRiskColor (summary : Summary)
    (scenarios : List ScenarioAnalysis) : Option RiskColor :=
  if summary.fundingGap > 0 then some .red
  else
    match scenarios.get? 1 with
    | none => none
    | some realisticScenario =>
      if realisticScenario.risk = .hoog then some .red
      else if realisticScenario.risk = .gemiddeld then some .yellow
      else some .green

/-- The overall risk color computed by `analyzeFinancials`:
`assessOverallRisk(summary, generateScenarios(inputs, summary))`. -/
def analyzeRiskColor (inputs : FinancialInputs) (summary : Summary) :
    Option RiskColor :=
  assessOverallRiskColor summary (generateScenarios inputs summary)

/-- The tier-to-color mirror stated by the spec:
High→red, Medium→yellow, Low→green. -/
def riskToColor : Risk → RiskColor
  | .hoog => .red
  | .gemiddeld => .yellow
  | .laag => .green

/-- C6: the analyzer's overall risk is red whenever `summary.fundingGap > 0`
regardless of the scenarios; otherwise it equals the color mirroring the
realistic (middle) scenario's tier. -/
theorem analyze_c6 (inputs : FinancialInputs) (summary : Summary) :
    (0 < summary.fundingGap →
      analyzeRiskColor inputs summary = some .red) ∧
    (summary.fundingGap ≤ 0 →
      ∃ realistic, (generateScenarios inputs summary).get? 1 = some realistic ∧
        analyzeRiskColor inputs summary = some (riskToColor realistic.risk)) := by
  constructor
  · intro h
    unfold analyzeRiskColor assessOverallRiskColor
    rw [if_pos h]
  · intro h
    refine ⟨_, rfl, ?_⟩
    unfold analyzeRiskColor assessOverallRiskColor
    rw [if_neg (not_lt.mpr h)]
    rcases hr : (calculateScenario "Realistisch" inputs.bankRatePct 0
        inputs.netIncomeMonthly inputs summary.familyMonthly).risk with _ | _ | _
    · simp only [generateScenarios, List.get?, hr, riskToColor]
      rfl
    · simp only [generateScenarios, List.get?, hr, riskToColor]
      rfl
    · simp only [generateScenarios, List.get?, hr, riskToColor]
      rfl

/-- All-zero inputs used as a concrete test vector. -/
def wInputs : FinancialInputs :=
  { purchasePrice := 0, registrationRatePct := 0, notaryFees := 0,
    renovationBudget := 0, contingencyPct := 0, ownCash := 0, cryptoNet := 0,
    familyLoanAmount := 0, familyLoanRatePct := 0, familyLoanTermYears := 0,
    bankLoanAmount := 0, bankRatePct := 0, bankTermYears := 0,
    netIncomeMonthly := 0, otherFixedCostsMonthly := 0, airbnbIncome := 0,
    useAirbnbIncome := false, businessUsePct := 0 }

/-- A summary with a funding gap of 1. -/
def wSummaryGap : Summary :=
  { regTax := 0, renoWithCont := 0, totalProject := 0, totalSources := 0,
    fundingGap := 1, bankMonthly := 0, familyMonthly := 0, totalDebt := 0,
    dtiPct := 0, netAfter := 0 }

/-- The all-zero summary (no funding gap). -/
def wSummaryOk : Summary :=
  { regTax := 0, renoWithCont := 0, totalProject := 0, totalSources := 0,
    fundingGap := 0, bankMonthly := 0, familyMonthly := 0, totalDebt := 0,
    dtiPct := 0, netAfter := 0 }

/-- Witness for `analyze_c6` on concrete summaries with and without a
funding gap. -/
theorem analyze_c6_witness :
    (0 < wSummaryGap.fundingGap ∧
      analyzeRiskColor wInputs wSummaryGap = some .red) ∧
    (wSummaryOk.fundingGap ≤ 0 ∧
      ∃ realistic,
        (generateScenarios wInputs wSummaryOk).get? 1 = some realistic ∧
        analyzeRiskColor wInputs wSummaryOk
          = some (riskToColor realistic.risk)) :=
  ⟨⟨by norm_num [wSummaryGap],
    (analyze_c6 wInputs wSummaryGap).1 (by norm_num [wSummaryGap])⟩,
   ⟨by norm_num [wSummaryOk],
    (analyze_c6 wInputs wSummaryOk).2 (by norm_num [wSummaryOk])⟩⟩

/- ## Sensitivity grid generator -/

/-- The `SensitivityConfig` interface. -/
structure SensitivityConfig where
  minAmount : ℚ
  maxAmount : ℚ
  stepAmount : ℚ
  minRate : ℚ
  maxRate : ℚ
  stepRate : ℚ
deriving Repr, DecidableEq

/-- The `SensitivityCell` interface. -/
structure SensitivityCell where
  amount : ℚ
  rate : ℚ
  monthly : ℚ
  isComfortable : Bool
deriving Repr, DecidableEq

/-- The cell pushed by the inner loop body:
`monthly = pmt(rate/100, bankTermYears, amount); totalDebt = monthly +
familyMonthly; dti = netIncomeMonthly > 0 ? totalDebt/netIncomeMonthly*100
: 100; { amount, rate: round2(rate), monthly: round2(monthly),
isComfortable: dti <= 45 }`. -/
def mkSensitivityCell (bankTermYears : ℤ)
    (familyMonthly netIncomeMonthly : ℚ) (amount rate : ℚ) :
    SensitivityCell :=
  let monthly := pmt (rate / 100) bankTermYears amount
  let totalDebt := monthly + familyMonthly
  let dti := if netIncomeMonthly > 0
    then totalDebt / netIncomeMonthly * 100 else 100
  { amount := amount, rate := round2 rate, monthly := round2 monthly,
    isComfortable := decide (dti ≤ 45) }

/-- The inner `for (rate = minRate; rate <= maxRate; rate += stepRate)`
loop, with fuel: `none` means the loop has not finished within `fuel`
iterations (for a non-positive step it never finishes). -/
def rateLoop (mkCell : ℚ → SensitivityCell) (maxRate stepRate : ℚ) :
    ℕ → ℚ → Option (List SensitivityCell)
  | 0, _ => none
  | fuel + 1, rate =>
    if rate ≤ maxRate then
      (rateLoop mkCell maxRate stepRate fuel (rate + stepRate)).map
        (fun row => mkCell rate :: row)
    else some []

/-- The outer `for (amount = minAmount; amount <= maxAmount; amount +=
stepAmount)` loop; every inner loop restarts with the same `innerFuel`. -/
def amountLoop (cfg : SensitivityConfig) (bankTermYears : ℤ)
    (familyMonthly netIncomeMonthly : ℚ) (innerFuel : ℕ) :
    ℕ → ℚ → Option (List (List SensitivityCell))
  | 0, _ => none
  | fuel + 1, amount =>
    if amount ≤ cfg.maxAmount then
      match rateLoop
          (mkSensitivityCell bankTermYears familyMonthly netIncomeMonthly
            amount) cfg.maxRate cfg.stepRate innerFuel cfg.minRate with
      | none => none
      | some row =>
        (amountLoop cfg bankTermYears familyMonthly netIncomeMonthly
          innerFuel fuel (amount + cfg.stepAmount)).map (fun g => row :: g)
    else some []

/-- Function `generateSensitivityGrid` from the source, with fuel; the
`otherFixedCostsMonthly` parameter is accepted and unused exactly as in the
source.  No validation of the configuration is performed before the loops
start. -/
def generateSensitivityGrid (fuel : ℕ) (config : SensitivityConfig)
    (bankTermYears : ℤ)
    (familyMonthly netIncomeMonthly otherFixedCostsMonthly : ℚ) :
    Option (List (List SensitivityCell)) :=
  amountLoop config bankTermYears familyMonthly netIncomeMonthly fuel fuel
    config.minAmount

/-- Function `getRates` from the source: `[]` on an empty grid, otherwise the rates
of the first row. -/
def getRates (grid : List (List SensitivityCell)) : List ℚ :=
  match grid with
  | [] => []
  | row :: _ => row.map (fun c => c.rate)

/-- Function `getAmounts` from the source needs a non-empty first cell in every row;
`none` models the JS crash on a row-empty grid. -/
def getAmounts (grid : List (List SensitivityCell)) : Option (List ℚ) :=
  grid.mapM (fun row => (row.head?).map (fun c => c.amount))

/-- With a positive step and enough fuel, the float-stepped loop visits
exactly `⌊(max − cur)/step⌋ + 1` values `cur, cur+step, …`. -/
theorem rateLoop_eq_map (mkCell : ℚ → SensitivityCell) {maxR stepR : ℚ}
    (hstep : 0 < stepR) :
    ∀ (fuel : ℕ) (cur : ℚ), cur ≤ maxR →
      ⌊(maxR - cur) / stepR⌋.toNat + 1 < fuel →
      rateLoop mkCell maxR stepR fuel cur =
        some ((List.range (⌊(maxR - cur) / stepR⌋.toNat + 1)).map
          (fun k : ℕ => mkCell (cur + (k : ℚ) * stepR))) := by
  intro fuel
  induction fuel with
  | zero =>
    intro cur _ hf
    omega
  | succ fuel ih =>
    intro cur hc hf
    have hN0 : 0 ≤ ⌊(maxR - cur) / stepR⌋ :=
      Int.floor_nonneg.mpr (div_nonneg (by linarith) hstep.le)
    by_cases h2 : cur + stepR ≤ maxR
    · have hrec : ⌊(maxR - (cur + stepR)) / stepR⌋
          = ⌊(maxR - cur) / stepR⌋ - 1 := by
        have e : (maxR - (cur + stepR)) / stepR
            = (maxR - cur) / stepR - ((1 : ℤ) : ℚ) := by
          push_cast
          field_simp
          ring
        rw [e, Int.floor_sub_int]
      have hN1 : 1 ≤ ⌊(maxR - cur) / stepR⌋ := by
        rw [Int.le_floor]
        push_cast
        rw [le_div_iff₀ hstep]
        linarith
      have hNN : ⌊(maxR - cur) / stepR⌋.toNat
          = ⌊(maxR - (cur + stepR)) / stepR⌋.toNat + 1 := by
        omega
      simp only [rateLoop]
      rw [if_pos hc, ih (cur + stepR) h2 (by omega)]
      simp only [Option.map_some']
      congr 1
      rw [hNN]
      conv_rhs => rw [List.range_succ_eq_map, List.map_cons, List.map_map]
      congr 1
      · simp
      · apply List.map_congr_left
        intro t _
        simp only [Function.comp_apply]
        congr 1
        push_cast
        ring
    · have hN : ⌊(maxR - cur) / stepR⌋ = 0 := by
        rw [Int.floor_eq_zero_iff]
        constructor
        · exact div_nonneg (by linarith) hstep.le
        · rw [div_lt_one hstep]
          linarith
      obtain ⟨g, rfl⟩ : ∃ g, fuel = g + 1 := ⟨fuel - 1, by omega⟩
      simp only [rateLoop]
      rw [if_pos hc, if_neg h2]
      simp only [Option.map_some']
      rw [hN]
      rw [show (0 : ℤ).toNat + 1 = 0 + 1 from rfl, List.range_succ]
      simp

/-- Outer-loop analogue of `rateLoop_eq_map`: with positive steps, both
bounds ordered and enough fuel the grid is the full rectangle of cells. -/
theorem amountLoop_eq_map (cfg : SensitivityConfig) (bty : ℤ)
    (fm ni : ℚ) (innerFuel : ℕ)
    (hstepR : 0 < cfg.stepRate) (hR : cfg.minRate ≤ cfg.maxRate)
    (hRfuel : ⌊(cfg.maxRate - cfg.minRate) / cfg.stepRate⌋.toNat + 1
      < innerFuel)
    (hstepA : 0 < cfg.stepAmount) :
    ∀ (fuel : ℕ) (cur : ℚ), cur ≤ cfg.maxAmount →
      ⌊(cfg.maxAmount - cur) / cfg.stepAmount⌋.toNat + 1 < fuel →
      amountLoop cfg bty fm ni innerFuel fuel cur =
        some ((List.range
            (⌊(cfg.maxAmount - cur) / cfg.stepAmount⌋.toNat + 1)).map
          (fun k : ℕ =>
            (List.range
                (⌊(cfg.maxRate - cfg.minRate) / cfg.stepRate⌋.toNat + 1)).map
              (fun j : ℕ => mkSensitivityCell bty fm ni
                (cur + (k : ℚ) * cfg.stepAmount)
                (cfg.minRate + (j : ℚ) * cfg.stepRate)))) := by
  intro fuel
  induction fuel with
  | zero =>
    intro cur _ hf
    omega
  | succ fuel ih =>
    intro cur hc hf
    have hN0 : 0 ≤ ⌊(cfg.maxAmount - cur) / cfg.stepAmount⌋ :=
      Int.floor_nonneg.mpr (div_nonneg (by linarith) hstepA.le)
    simp only [amountLoop]
    rw [if_pos hc,
      rateLoop_eq_map _ hstepR innerFuel cfg.minRate hR hRfuel]
    by_cases h2 : cur + cfg.stepAmount ≤ cfg.maxAmount
    · have hrec : ⌊(cfg.maxAmount - (cur + cfg.stepAmount)) / cfg.stepAmount⌋
          = ⌊(cfg.maxAmount - cur) / cfg.stepAmount⌋ - 1 := by
        have e : (cfg.maxAmount - (cur + cfg.stepAmount)) / cfg.stepAmount
            = (cfg.maxAmount - cur) / cfg.stepAmount - ((1 : ℤ) : ℚ) := by
          push_cast
          field_simp
          ring
        rw [e, Int.floor_sub_int]
      have hN1 : 1 ≤ ⌊(cfg.maxAmount - cur) / cfg.stepAmount⌋ := by
        rw [Int.le_floor]
        push_cast
        rw [le_div_iff₀ hstepA]
        linarith
      have hNN : ⌊(cfg.maxAmount - cur) / cfg.stepAmount⌋.toNat
          = ⌊(cfg.maxAmount - (cur + cfg.stepAmount))
              / cfg.stepAmount⌋.toNat + 1 := by
        omega
      rw [ih (cur + cfg.stepAmount) h2 (by omega)]
      simp only [Option.map_some']
      congr 1
      rw [hNN]
      conv_rhs => rw [show List.range
          ((⌊(cfg.maxAmount - (cur + cfg.stepAmount))
            / cfg.stepAmount⌋.toNat + 1) + 1)
          = 0 :: List.map Nat.succ (List.range
            (⌊(cfg.maxAmount - (cur + cfg.stepAmount))
              / cfg.stepAmount⌋.toNat + 1)) from List.range_succ_eq_map _,
        List.map_cons, List.map_map]
      congr 1
      · simp
      · apply List.map_congr_left
        intro t _
        simp only [Function.comp_apply]
        have hAA : cur + cfg.stepAmount + (t : ℚ) * cfg.stepAmount
            = cur + ((t : ℕ) + 1 : ℕ) * cfg.stepAmount := by
          push_cast
          ring
        simp only [hAA]
    · have hN : ⌊(cfg.maxAmount - cur) / cfg.stepAmount⌋ = 0 := by
        rw [Int.floor_eq_zero_iff]
        constructor
        · exact div_nonneg (by linarith) hstepA.le
        · rw [div_lt_one hstepA]
          linarith
      obtain ⟨g, rfl⟩ : ∃ g, fuel = g + 1 := ⟨fuel - 1, by omega⟩
      simp only [amountLoop]
      rw [if_neg h2]
      simp only [Option.map_some']
      rw [hN]
      rw [show List.range ((0 : ℤ).toNat + 1) = [0] from rfl]
      simp

theorem mkSensitivityCell_amount (bty : ℤ) (fm ni a r : ℚ) :
    (mkSensitivityCell bty fm ni a r).amount = a := rfl

theorem mkSensitivityCell_rate (bty : ℤ) (fm ni a r : ℚ) :
    (mkSensitivityCell bty fm ni a r).rate = round2 r := rfl

/-- C3: for positive steps and ordered bounds (and enough fuel for both
loops), the grid has exactly `⌊(maxAmount−minAmount)/stepAmount⌋+1` rows,
each row has exactly `⌊(maxRate−minRate)/stepRate⌋+1` cells, the row
amounts are strictly ascending, and the (rounded) cell rates are ascending
within each row. -/
theorem grid_c3 (cfg : SensitivityConfig) (bty : ℤ) (fm ni ofc : ℚ)
    (fuel : ℕ) (hA : 0 < cfg.stepAmount) (hR : 0 < cfg.stepRate)
    (hAm : cfg.minAmount ≤ cfg.maxAmount) (hRm : cfg.minRate ≤ cfg.maxRate)
    (hfA : ⌊(cfg.maxAmount - cfg.minAmount) / cfg.stepAmount⌋.toNat + 1
      < fuel)
    (hfR : ⌊(cfg.maxRate - cfg.minRate) / cfg.stepRate⌋.toNat + 1 < fuel) :
    ∃ grid, generateSensitivityGrid fuel cfg bty fm ni ofc = some grid ∧
      grid.length
        = ⌊(cfg.maxAmount - cfg.minAmount) / cfg.stepAmount⌋.toNat + 1 ∧
      (∀ row ∈ grid, row.length
        = ⌊(cfg.maxRate - cfg.minRate) / cfg.stepRate⌋.toNat + 1) ∧
      (∀ (i j : ℕ) (hi : i < grid.length) (hj : j < grid.length), i < j →
        ∀ ci ∈ grid.get ⟨i, hi⟩, ∀ cj ∈ grid.get ⟨j, hj⟩,
          ci.amount < cj.amount) ∧
      (∀ row ∈ grid, row.Pairwise (fun c d => c.rate ≤ d.rate)) := by
  have key := amountLoop_eq_map cfg bty fm ni fuel hR hRm hfR hA fuel
    cfg.minAmount hAm hfA
  refine ⟨_, key, ?_, ?_, ?_, ?_⟩
  · simp
  · intro row hrow
    obtain ⟨k, _, rfl⟩ := List.mem_map.mp hrow
    simp
  · intro i j hi hj hij ci hci cj hcj
    simp only [List.get_eq_getElem, List.getElem_map, List.getElem_range,
      List.length_map, List.length_range] at hci hcj
    obtain ⟨ji, _, rfl⟩ := List.mem_map.mp hci
    obtain ⟨jj, _, rfl⟩ := List.mem_map.mp hcj
    rw [mkSensitivityCell_amount, mkSensitivityCell_amount]
    have hcast : (i : ℚ) < (j : ℚ) := by exact_mod_cast hij
    have := mul_lt_mul_of_pos_right hcast hA
    linarith
  · intro row hrow
    obtain ⟨k, _, rfl⟩ := List.mem_map.mp hrow
    rw [List.pairwise_map]
    apply (List.pairwise_lt_range _).imp
    intro a b hab
    rw [mkSensitivityCell_rate, mkSensitivityCell_rate]
    apply round2_mono
    have hcast : (a : ℚ) ≤ (b : ℚ) := by exact_mod_cast hab.le
    have := mul_le_mul_of_nonneg_right hcast hR.le
    linarith

/-- A small concrete configuration: amounts 1..2 step 1, rates 3..5 step 1. -/
def wCfg : SensitivityConfig :=
  { minAmount := 1, maxAmount := 2, stepAmount := 1,
    minRate := 3, maxRate := 5, stepRate := 1 }

/-- Witness for `grid_c3` on `wCfg` with fuel 4. -/
theorem grid_c3_witness :
    (0 : ℚ) < wCfg.stepAmount ∧ (0 : ℚ) < wCfg.stepRate ∧
    wCfg.minAmount ≤ wCfg.maxAmount ∧ wCfg.minRate ≤ wCfg.maxRate ∧
    (∃ grid, generateSensitivityGrid 4 wCfg 0 0 0 0 = some grid ∧
      grid.length
        = ⌊(wCfg.maxAmount - wCfg.minAmount) / wCfg.stepAmount⌋.toNat + 1 ∧
      (∀ row ∈ grid, row.length
        = ⌊(wCfg.maxRate - wCfg.minRate) / wCfg.stepRate⌋.toNat + 1) ∧
      (∀ (i j : ℕ) (hi : i < grid.length) (hj : j < grid.length), i < j →
        ∀ ci ∈ grid.get ⟨i, hi⟩, ∀ cj ∈ grid.get ⟨j, hj⟩,
          ci.amount < cj.amount) ∧
      (∀ row ∈ grid, row.Pairwise (fun c d => c.rate ≤ d.rate))) := by
  have hA : ⌊(wCfg.maxAmount - wCfg.minAmount) / wCfg.stepAmount⌋ = 1 := by
    norm_num [wCfg, Int.floor_eq_iff]
  have hRf : ⌊(wCfg.maxRate - wCfg.minRate) / wCfg.stepRate⌋ = 2 := by
    norm_num [wCfg, Int.floor_eq_iff]
  refine ⟨by norm_num [wCfg], by norm_num [wCfg], by norm_num [wCfg],
    by norm_num [wCfg], ?_⟩
  exact grid_c3 wCfg 0 0 0 0 4 (by norm_num [wCfg]) (by norm_num [wCfg])
    (by norm_num [wCfg]) (by norm_num [wCfg])
    (by rw [hA]; norm_num) (by rw [hRf]; decide)

/-- With step 0 the inner loop never terminates once started below the
bound: every fuel is exhausted. -/
theorem rateLoop_stuck (mkCell : ℚ → SensitivityCell) (maxR rate : ℚ)
    (h : rate ≤ maxR) :
    ∀ fuel, rateLoop mkCell maxR 0 fuel rate = none := by
  intro fuel
  induction fuel with
  | zero => rfl
  | succ f ih =>
    simp only [rateLoop]
    rw [if_pos h, add_zero, ih]
    rfl

/-- C4: the source performs no validation.  With `minAmount > maxAmount`
the generator silently returns the empty grid (for any fuel ≥ 1, i.e. the
loop exits immediately rather than raising a validation error), and with a
non-positive `stepRate` (and ordered bounds) it never terminates: the
result is `none` for every fuel. -/
theorem grid_c4 :
    (∀ fuel : ℕ, generateSensitivityGrid (fuel + 1)
      { minAmount := 2, maxAmount := 1, stepAmount := 1,
        minRate := 3, maxRate := 5, stepRate := 1 } 0 0 0 0 = some []) ∧
    (∀ fuel : ℕ, generateSensitivityGrid fuel
      { minAmount := 1, maxAmount := 2, stepAmount := 1,
        minRate := 3, maxRate := 5, stepRate := 0 } 0 0 0 0 = none) := by
  constructor
  · intro fuel
    simp only [generateSensitivityGrid, amountLoop]
    rw [if_neg (by norm_num)]
  · intro fuel
    cases fuel with
    | zero => rfl
    | succ f =>
      simp only [generateSensitivityGrid, amountLoop]
      rw [if_pos (by norm_num),
        rateLoop_stuck _ _ _ (by norm_num) (f + 1)]

/-- Two runs of the inner loop over the same rate axis produce cell lists
with identical `rate` sequences, whatever the two cell builders put in the
other fields. -/
theorem rateLoop_rates (mk1 mk2 : ℚ → SensitivityCell) (maxR stepR : ℚ)
    (hmk : ∀ x, (mk1 x).rate = (mk2 x).rate) :
    ∀ (fuel : ℕ) (cur : ℚ) (l1 l2 : List SensitivityCell),
      rateLoop mk1 maxR stepR fuel cur = some l1 →
      rateLoop mk2 maxR stepR fuel cur = some l2 →
      l1.map (fun c => c.rate) = l2.map (fun c => c.rate) := by
  intro fuel
  induction fuel with
  | zero =>
    intro cur l1 l2 h1 _
    exact absurd h1 (by simp [rateLoop])
  | succ f ih =>
    intro cur l1 l2 h1 h2
    simp only [rateLoop] at h1 h2
    by_cases hc : cur ≤ maxR
    · rw [if_pos hc] at h1 h2
      cases e1 : rateLoop mk1 maxR stepR f (cur + stepR) with
      | none => rw [e1] at h1; exact absurd h1 (by simp)
      | some t1 =>
        cases e2 : rateLoop mk2 maxR stepR f (cur + stepR) with
        | none => rw [e2] at h2; exact absurd h2 (by simp)
        | some t2 =>
          rw [e1] at h1
          rw [e2] at h2
          simp only [Option.map_some', Option.some.injEq] at h1 h2
          subst h1
          subst h2
          simp only [List.map_cons]
          rw [hmk cur, ih (cur + stepR) t1 t2 e1 e2]
    · rw [if_neg hc] at h1 h2
      simp only [Option.some.injEq] at h1 h2
      subst h1
      subst h2
      rfl

/-- Every row of a successful outer loop is a successful inner loop run
over the same rate axis (only the amount passed to the cell builder
differs). -/
theorem amountLoop_rows (cfg : SensitivityConfig) (bty : ℤ)
    (fm ni : ℚ) (innerFuel : ℕ) :
    ∀ (fuel : ℕ) (cur : ℚ) (grid : List (List SensitivityCell)),
      amountLoop cfg bty fm ni innerFuel fuel cur = some grid →
      ∀ row ∈ grid, ∃ amt,
        rateLoop (mkSensitivityCell bty fm ni amt) cfg.maxRate cfg.stepRate
          innerFuel cfg.minRate = some row := by
  intro fuel
  induction fuel with
  | zero =>
    intro cur grid h
    exact absurd h (by simp [amountLoop])
  | succ f ih =>
    intro cur grid h row hrow
    simp only [amountLoop] at h
    by_cases hc : cur ≤ cfg.maxAmount
    · rw [if_pos hc] at h
      cases e : rateLoop (mkSensitivityCell bty fm ni cur) cfg.maxRate
          cfg.stepRate innerFuel cfg.minRate with
      | none => rw [e] at h; exact absurd h (by simp)
      | some r0 =>
        rw [e] at h
        cases e2 : amountLoop cfg bty fm ni innerFuel f
            (cur + cfg.stepAmount) with
        | none => rw [e2] at h; exact absurd h (by simp)
        | some rest =>
          rw [e2] at h
          simp only [Option.map_some', Option.some.injEq] at h
          subst h
          rcases List.mem_cons.mp hrow with hr | hr
          · exact ⟨cur, by rw [← hr] at e; exact e⟩
          · exact ih (cur + cfg.stepAmount) rest e2 row hr
    · rw [if_neg hc] at h
      simp only [Option.some.injEq] at h
      subst h
      cases hrow

/-- C10: whenever `generateSensitivityGrid` terminates, the grid is
rectangular and `getRates` (read off the first row) describes the rate
sequence of every row. -/
theorem grid_c10 (fuel : ℕ) (cfg : SensitivityConfig) (bty : ℤ)
    (fm ni ofc : ℚ) (grid : List (List SensitivityCell))
    (h : generateSensitivityGrid fuel cfg bty fm ni ofc = some grid) :
    ∀ row ∈ grid, row.map (fun c => c.rate) = getRates grid ∧
      row.length = (getRates grid).length := by
  intro row hrow
  cases grid with
  | nil => cases hrow
  | cons row0 rest =>
    have hmem0 : row0 ∈ row0 :: rest := List.mem_cons_self _ _
    unfold generateSensitivityGrid at h
    obtain ⟨a1, h1⟩ :=
      amountLoop_rows cfg bty fm ni fuel fuel cfg.minAmount _ h row hrow
    obtain ⟨a0, h0⟩ :=
      amountLoop_rows cfg bty fm ni fuel fuel cfg.minAmount _ h row0 hmem0
    have hr : row.map (fun c => c.rate) = row0.map (fun c => c.rate) :=
      rateLoop_rates (mkSensitivityCell bty fm ni a1)
        (mkSensitivityCell bty fm ni a0) cfg.maxRate cfg.stepRate
        (fun _ => rfl) fuel cfg.minRate row row0 h1 h0
    refine ⟨hr, ?_⟩
    have hlen := congrArg List.length hr
    simp only [List.length_map] at hlen
    simp [getRates, hlen]

/-- The grid produced on `wCfg` with a zero-term loan (all cells trivial). -/
def wGrid : List (List SensitivityCell) :=
  [[mkSensitivityCell 0 0 0 1 3, mkSensitivityCell 0 0 0 1 4,
    mkSensitivityCell 0 0 0 1 5],
   [mkSensitivityCell 0 0 0 2 3, mkSensitivityCell 0 0 0 2 4,
    mkSensitivityCell 0 0 0 2 5]]

theorem wGrid_eval : generateSensitivityGrid 4 wCfg 0 0 0 0 = some wGrid := by
  have hA : ⌊(wCfg.maxAmount - wCfg.minAmount) / wCfg.stepAmount⌋ = 1 := by
    norm_num [wCfg, Int.floor_eq_iff]
  have hRf : ⌊(wCfg.maxRate - wCfg.minRate) / wCfg.stepRate⌋ = 2 := by
    norm_num [wCfg, Int.floor_eq_iff]
  have key := amountLoop_eq_map wCfg 0 0 0 4 (by norm_num [wCfg])
    (by norm_num [wCfg]) (by rw [hRf]; decide) (by norm_num [wCfg]) 4
    wCfg.minAmount (by norm_num [wCfg]) (by rw [hA]; decide)
  unfold generateSensitivityGrid
  rw [key, hA, hRf]
  congr 1
  rw [show (1 : ℤ).toNat + 1 = 2 from rfl, show (2 : ℤ).toNat + 1 = 3 from rfl,
    show List.range 2 = [0, 1] from rfl, show List.range 3 = [0, 1, 2] from rfl]
  simp only [List.map_cons, List.map_nil]
  norm_num [wGrid, wCfg]

/-- Witness for `grid_c10`: the second row of the concrete grid `wGrid` has
the same rate sequence and length that `getRates` reads off the first
row. -/
theorem grid_c10_witness :
    generateSensitivityGrid 4 wCfg 0 0 0 0 = some wGrid ∧
    ([mkSensitivityCell 0 0 0 2 3, mkSensitivityCell 0 0 0 2 4,
      mkSensitivityCell 0 0 0 2 5].map (fun c => c.rate) = getRates wGrid ∧
     [mkSensitivityCell 0 0 0 2 3, mkSensitivityCell 0 0 0 2 4,
      mkSensitivityCell 0 0 0 2 5].length = (getRates wGrid).length) :=
  ⟨wGrid_eval,
   grid_c10 4 wCfg 0 0 0 0 wGrid wGrid_eval
     [mkSensitivityCell 0 0 0 2 3, mkSensitivityCell 0 0 0 2 4,
      mkSensitivityCell 0 0 0 2 5] (by simp [wGrid])⟩

/-- Witness for `summary_c5_amended`: on the concrete gap summary the BAD
case holds and dominates the other two. -/
theorem summary_c5_amended_witness :
    hasIssues wSummaryGap ∧ ¬ needsAttention wSummaryGap ∧
      ¬ looksGood wSummaryGap :=
  have h : hasIssues wSummaryGap := Or.inl (by norm_num [wSummaryGap])
  ⟨h, ((summary_c5_amended wSummaryGap).2.2.2.1 h).1,
    ((summary_c5_amended wSummaryGap).2.2.2.1 h).2⟩
